import Mathlib

/-!
# Verification of the postmorty indicator calculation engine

Shallow embedding of `src/postmorty/core/calc_indicators.py`
(`IndicatorCalculator`).  Price series are modelled as exact rationals
(`ℚ`): every claim under scrutiny is about the structure of the
recurrences (tie policies, null gating, band persistence, clamping,
sorting), not about floating-point rounding, so exact arithmetic is the
faithful idealisation.  The only genuinely irrational quantity, the
Bollinger rolling standard deviation, is embedded over `ℝ` with
`Real.sqrt`.  A pandas column is embedded as an indexed series
`ℕ → ℚ` (respectively `ℕ → Option ℚ` when the column can hold NaN, with
`none` playing the role of the NaN / undefined marker).  IEEE outcomes
of division by zero, which the RSI stage relies on, are embedded
explicitly by the `ERat` type below.
-/

namespace Postmorty

/-- One OHLCV record, as handed to `IndicatorCalculator.calculate_all`
(a dict with keys `timestamp, open, high, low, close, volume`). -/
structure Bar where
  timestamp : ℤ
  open_ : ℚ
  high : ℚ
  low : ℚ
  close : ℚ
  volume : ℚ
  deriving DecidableEq, Repr

/-! ## EMA stage (`_calculate_emas`)

`df["close"].ewm(span=N, adjust=False).mean()` is the recurrence
`y[0] = x[0]`, `y[i] = (1-α)·y[i-1] + α·x[i]` with `α = 2/(N+1)`. -/

/-- `x.ewm(alpha=a, adjust=False).mean()` on a NaN-free series `x`. -/
def ewmRec (a : ℚ) (x : ℕ → ℚ) : ℕ → ℚ
  | 0 => x 0
  | i + 1 => (1 - a) * ewmRec a x i + a * x (i + 1)

/-- `x.ewm(span=n, adjust=False).mean()`: pandas derives `α = 2/(n+1)`. -/
def ewmSpan (n : ℕ) (x : ℕ → ℚ) : ℕ → ℚ :=
  ewmRec (2 / (n + 1)) x

def ema_10 (close : ℕ → ℚ) : ℕ → ℚ := ewmSpan 10 close

def ema_36 (close : ℕ → ℚ) : ℕ → ℚ := ewmSpan 36 close

def ema_100 (close : ℕ → ℚ) : ℕ → ℚ := ewmSpan 100 close

def ema_200 (close : ℕ → ℚ) : ℕ → ℚ := ewmSpan 200 close

/-- Generic form of the spec's EMA recurrence, proved once for any span. -/
theorem ewmSpan_zero (n : ℕ) (x : ℕ → ℚ) : ewmSpan n x 0 = x 0 := rfl

theorem ewmSpan_succ (n : ℕ) (x : ℕ → ℚ) (i : ℕ) :
    ewmSpan n x (i + 1) =
      (2 / (n + 1)) * x (i + 1) + (1 - 2 / (n + 1)) * ewmSpan n x i := by
  simp [ewmSpan, ewmRec]
  ring

/-! ## Bollinger stage (`_calculate_bollinger_bands`)

`rolling(window=20)` needs 20 observations (its default `min_periods`),
so the first 19 outputs are NaN; `.std()` is the sample standard
deviation (ddof = 1, divisor 19). -/

/-- The 20-element window `close[i-19..i]` that `rolling(window=20)`
reads at row `i` (only consulted when `19 ≤ i`). -/
def rollWindow20 (x : ℕ → ℚ) (i : ℕ) : List ℚ :=
  (List.range 19).map (fun k => x (i - 19 + k)) ++ [x i]

/-- `df["close"].rolling(window=20).mean()`. -/
def bb_basis_20 (close : ℕ → ℚ) (i : ℕ) : Option ℚ :=
  if 19 ≤ i then some ((rollWindow20 close i).sum / 20) else none

/-- Sample variance of the 20-window; `rolling(20).std()` is its square
root, which is generally irrational, hence the bands live in `ℝ`. -/
def rollVar20 (close : ℕ → ℚ) (i : ℕ) : ℚ :=
  ((rollWindow20 close i).map
    (fun v => (v - (rollWindow20 close i).sum / 20) ^ 2)).sum / 19

/-- `df["bb_basis_20"] + 2 * rolling_std`. -/
noncomputable def bb_upper_20 (close : ℕ → ℚ) (i : ℕ) : Option ℝ :=
  if 19 ≤ i then
    some ((((rollWindow20 close i).sum / 20 : ℚ) : ℝ) +
      2 * Real.sqrt (rollVar20 close i))
  else none

/-- `df["bb_basis_20"] - 2 * rolling_std`. -/
noncomputable def bb_lower_20 (close : ℕ → ℚ) (i : ℕ) : Option ℝ :=
  if 19 ≤ i then
    some ((((rollWindow20 close i).sum / 20 : ℚ) : ℝ) -
      2 * Real.sqrt (rollVar20 close i))
  else none

/-! ## RSI stage (`_calculate_rsi`, period 14)

`delta = close.diff()` is NaN at index 0; `delta.where(delta > 0, 0.0)`
replaces every entry whose predicate is `False` — including the leading
NaN, since `NaN > 0` is `False` — by `0.0`.  The gain/loss series are
therefore NaN-free and start with 0, so `ewm(..., min_periods=14)`
counts index 0 as an observation and unmasks from index 13 onward. -/

/-- `delta.where(delta > 0, 0.0)`. -/
def gain (close : ℕ → ℚ) : ℕ → ℚ
  | 0 => 0
  | i + 1 => if close (i + 1) - close i > 0 then close (i + 1) - close i else 0

/-- `(-delta).where(delta < 0, 0.0)`. -/
def loss (close : ℕ → ℚ) : ℕ → ℚ
  | 0 => 0
  | i + 1 => if close (i + 1) - close i < 0 then -(close (i + 1) - close i) else 0

/-- `gain.ewm(alpha=1/14, min_periods=14, adjust=False).mean()`: the
recurrence runs from index 0 and `min_periods` masks the first 13
outputs with NaN. -/
def avg_gain (close : ℕ → ℚ) (i : ℕ) : Option ℚ :=
  if 13 ≤ i then some (ewmRec (1 / 14) (gain close) i) else none

/-- `loss.ewm(alpha=1/14, min_periods=14, adjust=False).mean()`. -/
def avg_loss (close : ℕ → ℚ) (i : ℕ) : Option ℚ :=
  if 13 ≤ i then some (ewmRec (1 / 14) (loss close) i) else none

/-- A 64-bit float outcome relevant to the RSI formula: a finite value
(idealised as an exact rational), ±∞, or NaN. -/
inductive ERat where
  | nan : ERat
  | pinf : ERat
  | ninf : ERat
  | val : ℚ → ERat
  deriving DecidableEq, Repr

/-- IEEE division `a / b` of finite doubles: division by zero yields
±∞ by the sign of the numerator, and NaN for `0/0`. -/
def ieeeDiv (a b : ℚ) : ERat :=
  if b = 0 then (if a = 0 then .nan else if 0 < a then .pinf else .ninf)
  else .val (a / b)

/-- IEEE `c + x` for a finite constant `c`. -/
def ERat.addL (c : ℚ) : ERat → ERat
  | .nan => .nan
  | .pinf => .pinf
  | .ninf => .ninf
  | .val q => .val (c + q)

/-- IEEE `c / x` for a finite constant `c`; `c / ±∞` is a (signed) zero,
both signs embedded as `0`. -/
def ERat.divL (c : ℚ) : ERat → ERat
  | .nan => .nan
  | .pinf => .val 0
  | .ninf => .val 0
  | .val q => ieeeDiv c q

/-- IEEE `c - x` for a finite constant `c`. -/
def ERat.subL (c : ℚ) : ERat → ERat
  | .nan => .nan
  | .pinf => .ninf
  | .ninf => .pinf
  | .val q => .val (c - q)

/-- A non-finite entry of a stored column is the undefined/null marker
(the persistence layer substitutes null for any non-finite value). -/
def ERat.toOption : ERat → Option ℚ
  | .val q => some q
  | _ => none

/-- `rs = avg_gain / avg_loss; rsi_14 = 100 - (100 / (1 + rs))`,
elementwise with NaN propagation from the masked averages. -/
def rsi_14 (close : ℕ → ℚ) (i : ℕ) : Option ℚ :=
  match avg_gain close i, avg_loss close i with
  | some g, some l =>
      (ERat.subL 100 (ERat.divL 100 (ERat.addL 1 (ieeeDiv g l)))).toOption
  | _, _ => none

theorem gain_nonneg (close : ℕ → ℚ) (j : ℕ) : 0 ≤ gain close j := by
  cases j with
  | zero => simp [gain]
  | succ n =>
    simp only [gain]
    split <;> [linarith; simp]

theorem ewmRec_nonneg (a : ℚ) (x : ℕ → ℚ) (ha : 0 ≤ a) (ha1 : a ≤ 1)
    (hx : ∀ j, 0 ≤ x j) : ∀ i, 0 ≤ ewmRec a x i
  | 0 => hx 0
  | i + 1 => by
    have h1 := ewmRec_nonneg a x ha ha1 hx i
    have h2 := hx (i + 1)
    simp only [ewmRec]
    nlinarith

/-- C6: EMA recurrence: for every input and each span N in
{10, 36, 100, 200}, with α = 2/(N+1), `ema_N[0] = close[0]` and
`ema_N[i] = α·close[i] + (1-α)·ema_N[i-1]` for every i > 0; the value is
defined at every index with no minimum-history gating (the columns are
total functions of the index). -/
theorem ema_recurrence_spec (close : ℕ → ℚ) (i : ℕ) :
    ema_10 close 0 = close 0 ∧
    ema_10 close (i + 1) =
      (2 / 11) * close (i + 1) + (1 - 2 / 11) * ema_10 close i ∧
    ema_36 close 0 = close 0 ∧
    ema_36 close (i + 1) =
      (2 / 37) * close (i + 1) + (1 - 2 / 37) * ema_36 close i ∧
    ema_100 close 0 = close 0 ∧
    ema_100 close (i + 1) =
      (2 / 101) * close (i + 1) + (1 - 2 / 101) * ema_100 close i ∧
    ema_200 close 0 = close 0 ∧
    ema_200 close (i + 1) =
      (2 / 201) * close (i + 1) + (1 - 2 / 201) * ema_200 close i := by
  refine ⟨rfl, ?_, rfl, ?_, rfl, ?_, rfl, ?_⟩
  · simp only [ema_10]
    rw [ewmSpan_succ 10 close i]
    norm_num
  · simp only [ema_36]
    rw [ewmSpan_succ 36 close i]
    norm_num
  · simp only [ema_100]
    rw [ewmSpan_succ 100 close i]
    norm_num
  · simp only [ema_200]
    rw [ewmSpan_succ 200 close i]
    norm_num

/-- C3 (amended): for every input series, `bb_basis_20`, `bb_upper_20`
and `bb_lower_20` are null at exactly the first 19 indices (defined from
index 19 onward), and `rsi_14` is null at the first 13 indices: the
leading NaN of `close.diff()` is coerced to a 0.0 gain/loss by `where`,
so it counts as an observation and `min_periods=14` unmasks from index
13, not 14. -/
theorem bb_rsi_null_gating (close : ℕ → ℚ) (i : ℕ) :
    (bb_basis_20 close i = none ↔ i < 19) ∧
    (bb_upper_20 close i = none ↔ i < 19) ∧
    (bb_lower_20 close i = none ↔ i < 19) ∧
    (i < 13 → rsi_14 close i = none) := by
  refine ⟨?_, ?_, ?_, ?_⟩
  · rcases le_or_lt 19 i with h | h
    · simp [bb_basis_20, h, h.not_lt]
    · simp [bb_basis_20, Nat.not_le.mpr h, h]
  · rcases le_or_lt 19 i with h | h
    · simp [bb_upper_20, h, h.not_lt]
    · simp [bb_upper_20, Nat.not_le.mpr h, h]
  · rcases le_or_lt 19 i with h | h
    · simp [bb_lower_20, h, h.not_lt]
    · simp [bb_lower_20, Nat.not_le.mpr h, h]
  · intro h
    have hg : avg_gain close i = none := by
      simp [avg_gain]; omega
    simp [rsi_14, hg]

/-- Witness for C3 (amended) at a concrete input and index. -/
theorem bb_rsi_null_gating_witness :
    bb_basis_20 (fun n => (n : ℚ)) 5 = none ∧
    rsi_14 (fun n => (n : ℚ)) 5 = none := by
  constructor
  · exact ((bb_rsi_null_gating (fun n => (n : ℚ)) 5).1).mpr (by norm_num)
  · exact (bb_rsi_null_gating (fun n => (n : ℚ)) 5).2.2.2 (by norm_num)

/-- C3 counterexample: on the strictly increasing input `close[n] = n`
(any length ≥ 20 of it), `rsi_14` at index 13 is `100`, not null —
refuting the claim that the first 14 values of `rsi_14` are null. -/
theorem rsi_null_first14_refuted :
    ¬ (∀ i, i < 14 → rsi_14 (fun n => (n : ℚ)) i = none) := by
  intro h
  have h13 := h 13 (by norm_num)
  have hg : 0 < ewmRec ((14 : ℚ))⁻¹ (gain (fun n => (n : ℚ))) 13 := by
    norm_num [ewmRec, gain]
  have hl : ewmRec ((14 : ℚ))⁻¹ (loss (fun n => (n : ℚ))) 13 = 0 := by
    norm_num [ewmRec, loss]
  have hv : rsi_14 (fun n => (n : ℚ)) 13 = some 100 := by
    simp [rsi_14, avg_gain, avg_loss, hl, ieeeDiv, hg, hg.ne',
      ERat.addL, ERat.divL, ERat.subL, ERat.toOption]
  rw [hv] at h13
  exact Option.noConfusion h13

/-- C8: RSI zero-loss saturation: at every index where `rsi_14` is
defined, a zero Wilder average loss forces the value 100: the division
`avg_gain / 0` yields +∞ and `100 - 100/(1+∞) = 100`.  (When the average
gain is also zero the division is `0/0` = NaN and `rsi_14` is undefined,
so the definedness hypothesis excludes it.) -/
theorem rsi_zero_loss_saturation (close : ℕ → ℚ) (i : ℕ)
    (hdef : rsi_14 close i ≠ none)
    (hloss : avg_loss close i = some 0) :
    rsi_14 close i = some 100 := by
  have hi : 13 ≤ i := by
    by_contra hi
    simp [avg_loss, hi] at hloss
  have hl : ewmRec ((14 : ℚ))⁻¹ (loss close) i = 0 := by
    simpa [avg_loss, hi] using hloss
  have hgnn : 0 ≤ ewmRec ((14 : ℚ))⁻¹ (gain close) i :=
    ewmRec_nonneg _ _ (by norm_num) (by norm_num) (gain_nonneg close) i
  rcases eq_or_lt_of_le hgnn with hg0 | hgpos
  · exact absurd (by simp [rsi_14, avg_gain, avg_loss, hi, hl, ← hg0, ieeeDiv,
      ERat.addL, ERat.divL, ERat.subL, ERat.toOption]) hdef
  · simp [rsi_14, avg_gain, avg_loss, hi, hl, ieeeDiv, hgpos, hgpos.ne',
      ERat.addL, ERat.divL, ERat.subL, ERat.toOption]

/-- Witness for C8: on `close[n] = n` at index 13 the average loss is 0,
`rsi_14` is defined, and the theorem yields the value 100. -/
theorem rsi_zero_loss_saturation_witness :
    rsi_14 (fun n => (n : ℚ)) 13 = some 100 := by
  have hg : 0 < ewmRec ((14 : ℚ))⁻¹ (gain (fun n => (n : ℚ))) 13 := by
    norm_num [ewmRec, gain]
  have hl : ewmRec ((14 : ℚ))⁻¹ (loss (fun n => (n : ℚ))) 13 = 0 := by
    norm_num [ewmRec, loss]
  refine rsi_zero_loss_saturation (fun n => (n : ℚ)) 13 ?_ ?_
  · simp [rsi_14, avg_gain, avg_loss, hl, ieeeDiv, hg, hg.ne',
      ERat.addL, ERat.divL, ERat.subL, ERat.toOption]
  · simp [avg_loss, hl]

/-! ## Supertrend stage (`_calculate_atr`, `_calculate_supertrend`)

The source loop mutates `lower_band` / `upper_band` in place: at the test
on row `i`, `band.iloc[i]` still holds the raw band while
`band.iloc[i-1]` holds the persisted value written by the previous
iteration.  The embedding makes the persisted series explicit. -/

/-- True range: rowwise max of `high-low`, `|high-close.shift(1)|`,
`|low-close.shift(1)|`; at index 0 the shifted terms are NaN and the
rowwise `max` (skipna) reduces to `high[0]-low[0]`. -/
def trueRange (high low close : ℕ → ℚ) : ℕ → ℚ
  | 0 => high 0 - low 0
  | i + 1 =>
    max (high (i + 1) - low (i + 1))
      (max |high (i + 1) - close i| |low (i + 1) - close i|)

/-- `atr = tr.ewm(span=period, adjust=False).mean()` with period 7. -/
def atr (high low close : ℕ → ℚ) : ℕ → ℚ :=
  ewmSpan 7 (trueRange high low close)

/-- `hl2 = (high + low) / 2`. -/
def hl2 (high low : ℕ → ℚ) (i : ℕ) : ℚ := (high i + low i) / 2

/-- `upper_band = hl2 + multiplier * atr` before the persistence loop. -/
def upperRaw (high low close : ℕ → ℚ) (i : ℕ) : ℚ :=
  hl2 high low i + 3 * atr high low close i

/-- `lower_band = hl2 - multiplier * atr` before the persistence loop. -/
def lowerRaw (high low close : ℕ → ℚ) (i : ℕ) : ℚ :=
  hl2 high low i - 3 * atr high low close i

/-- The persisted lower band: kept raw when
`lower_band.iloc[i] > lower_band.iloc[i-1] or close.iloc[i-1] <
lower_band.iloc[i-1]`, else overwritten with the previous value.  Index
0 is left raw (the loop `continue`s before touching the bands). -/
def lowerBand (high low close : ℕ → ℚ) : ℕ → ℚ
  | 0 => lowerRaw high low close 0
  | i + 1 =>
    if lowerRaw high low close (i + 1) > lowerBand high low close i ∨
        close i < lowerBand high low close i then
      lowerRaw high low close (i + 1)
    else lowerBand high low close i

/-- The persisted upper band: kept raw when
`upper_band.iloc[i] < upper_band.iloc[i-1] or close.iloc[i-1] >
upper_band.iloc[i-1]`, else carried forward. -/
def upperBand (high low close : ℕ → ℚ) : ℕ → ℚ
  | 0 => upperRaw high low close 0
  | i + 1 =>
    if upperRaw high low close (i + 1) < upperBand high low close i ∨
        close i > upperBand high low close i then
      upperRaw high low close (i + 1)
    else upperBand high low close i

/-- `df["supertrend_7_3"]`: seeded at the upper band, then flipping
between the persisted bands on close/band crossings. -/
def supertrend_7_3 (high low close : ℕ → ℚ) : ℕ → ℚ
  | 0 => upperBand high low close 0
  | i + 1 =>
    if supertrend_7_3 high low close i = upperBand high low close i then
      if close (i + 1) > upperBand high low close (i + 1) then
        lowerBand high low close (i + 1)
      else upperBand high low close (i + 1)
    else
      if close (i + 1) < lowerBand high low close (i + 1) then
        upperBand high low close (i + 1)
      else lowerBand high low close (i + 1)

/-- `df["supertrend_direction"]`: `-1` seeded, `+1`/`-1` assigned in the
same branches that pick the lower/upper band respectively. -/
def supertrend_direction (high low close : ℕ → ℚ) : ℕ → ℤ
  | 0 => -1
  | i + 1 =>
    if supertrend_7_3 high low close i = upperBand high low close i then
      if close (i + 1) > upperBand high low close (i + 1) then 1 else -1
    else
      if close (i + 1) < lowerBand high low close (i + 1) then -1 else 1

/-- C1: the Supertrend state machine: the fixed seed at index 0, the
band-persistence rule for both persisted bands, and the trend-flip rule,
with direction `+1` exactly on the branches that select the lower band
and `-1` on those that select the upper band. -/
theorem supertrend_state_machine (high low close : ℕ → ℚ) (i : ℕ) :
    supertrend_7_3 high low close 0 = upperBand high low close 0 ∧
    supertrend_direction high low close 0 = -1 ∧
    lowerBand high low close (i + 1) =
      (if lowerRaw high low close (i + 1) > lowerBand high low close i ∨
          close i < lowerBand high low close i
        then lowerRaw high low close (i + 1)
        else lowerBand high low close i) ∧
    upperBand high low close (i + 1) =
      (if upperRaw high low close (i + 1) < upperBand high low close i ∨
          close i > upperBand high low close i
        then upperRaw high low close (i + 1)
        else upperBand high low close i) ∧
    (supertrend_7_3 high low close i = upperBand high low close i →
      supertrend_7_3 high low close (i + 1) =
        (if close (i + 1) > upperBand high low close (i + 1)
          then lowerBand high low close (i + 1)
          else upperBand high low close (i + 1)) ∧
      supertrend_direction high low close (i + 1) =
        (if close (i + 1) > upperBand high low close (i + 1)
          then 1 else -1)) ∧
    (supertrend_7_3 high low close i ≠ upperBand high low close i →
      supertrend_7_3 high low close (i + 1) =
        (if close (i + 1) < lowerBand high low close (i + 1)
          then upperBand high low close (i + 1)
          else lowerBand high low close (i + 1)) ∧
      supertrend_direction high low close (i + 1) =
        (if close (i + 1) < lowerBand high low close (i + 1)
          then -1 else 1)) := by
  refine ⟨rfl, rfl, by rw [lowerBand], by rw [upperBand], ?_, ?_⟩
  · intro h
    constructor
    · rw [supertrend_7_3]
      rw [if_pos h]
    · rw [supertrend_direction]
      rw [if_pos h]
  · intro h
    constructor
    · rw [supertrend_7_3]
      rw [if_neg h]
    · rw [supertrend_direction]
      rw [if_neg h]

/-- Witness for C1: the flip rule instantiated on a concrete series at
index 0, the downtrend hypothesis discharged by the seed equation. -/
theorem supertrend_state_machine_witness :
    supertrend_7_3 (fun _ => 2) (fun _ => 1) (fun _ => 3) 1 =
      (if (3 : ℚ) > upperBand (fun _ => 2) (fun _ => 1) (fun _ => 3) 1
        then lowerBand (fun _ => 2) (fun _ => 1) (fun _ => 3) 1
        else upperBand (fun _ => 2) (fun _ => 1) (fun _ => 3) 1) ∧
    supertrend_direction (fun _ => 2) (fun _ => 1) (fun _ => 3) 1 =
      (if (3 : ℚ) > upperBand (fun _ => 2) (fun _ => 1) (fun _ => 3) 1
        then 1 else -1) :=
  (supertrend_state_machine (fun _ => 2) (fun _ => 1) (fun _ => 3) 0).2.2.2.2.1
    (supertrend_state_machine (fun _ => 2) (fun _ => 1) (fun _ => 3) 0).1

/-- C10: the direction flag is always exactly `-1` or `+1`, and the
supertrend value coincides with the persisted upper band whenever the
direction is `-1` and with the persisted lower band whenever it is
`+1`. -/
theorem supertrend_direction_invariant (high low close : ℕ → ℚ) (i : ℕ) :
    (supertrend_direction high low close i = -1 ∨
      supertrend_direction high low close i = 1) ∧
    (supertrend_direction high low close i = -1 →
      supertrend_7_3 high low close i = upperBand high low close i) ∧
    (supertrend_direction high low close i = 1 →
      supertrend_7_3 high low close i = lowerBand high low close i) := by
  cases i with
  | zero =>
    refine ⟨Or.inl rfl, fun _ => rfl, fun h => ?_⟩
    rw [supertrend_direction] at h
    exact absurd h (by decide)
  | succ n =>
    rw [supertrend_7_3, supertrend_direction]
    split
    · split
      · exact ⟨Or.inr rfl, fun h => absurd h (by decide), fun _ => rfl⟩
      · exact ⟨Or.inl rfl, fun _ => rfl, fun h => absurd h (by decide)⟩
    · split
      · exact ⟨Or.inl rfl, fun _ => rfl, fun h => absurd h (by decide)⟩
      · exact ⟨Or.inr rfl, fun h => absurd h (by decide), fun _ => rfl⟩

/-- Witness for C10 on a concrete series and index. -/
theorem supertrend_direction_invariant_witness :
    (supertrend_direction (fun _ => 8) (fun _ => 4) (fun _ => 5) 3 = -1 ∨
      supertrend_direction (fun _ => 8) (fun _ => 4) (fun _ => 5) 3 = 1) ∧
    (supertrend_direction (fun _ => 8) (fun _ => 4) (fun _ => 5) 3 = -1 →
      supertrend_7_3 (fun _ => 8) (fun _ => 4) (fun _ => 5) 3 =
        upperBand (fun _ => 8) (fun _ => 4) (fun _ => 5) 3) ∧
    (supertrend_direction (fun _ => 8) (fun _ => 4) (fun _ => 5) 3 = 1 →
      supertrend_7_3 (fun _ => 8) (fun _ => 4) (fun _ => 5) 3 =
        lowerBand (fun _ => 8) (fun _ => 4) (fun _ => 5) 3) :=
  supertrend_direction_invariant (fun _ => 8) (fun _ => 4) (fun _ => 5) 3

/-! ## TD Sequential stage (`_calculate_td_sequential`)

`counts = [0]*len(df)` and the loop runs for `i in range(4, len(df))`;
indices 0..3 keep 0 (the `len(df) < 5` early return leaves the same
all-zero column, so it needs no separate case).  The tie is a hard reset
to 0. -/

/-- `df["td_seq"]`. -/
def td_seq (close : ℕ → ℚ) : ℕ → ℤ
  | 0 => 0
  | 1 => 0
  | 2 => 0
  | 3 => 0
  | n + 4 =>
    if close (n + 4) > close n then
      if td_seq close (n + 3) > 0 then min (td_seq close (n + 3) + 1) 13 else 1
    else if close (n + 4) < close n then
      if td_seq close (n + 3) < 0 then max (td_seq close (n + 3) - 1) (-13)
      else -1
    else 0

theorem td_seq_bounds (close : ℕ → ℚ) :
    ∀ i, -13 ≤ td_seq close i ∧ td_seq close i ≤ 13
  | 0 => by simp [td_seq]
  | 1 => by simp [td_seq]
  | 2 => by simp [td_seq]
  | 3 => by simp [td_seq]
  | n + 4 => by
    have ih := td_seq_bounds close (n + 3)
    rw [td_seq]
    split
    · split <;> omega
    · split
      · split <;> omega
      · omega

/-- C4: the TD Sequential counter: 0 on the first four bars; for i ≥ 4
a clamped bullish/bearish run counter against the close four bars back,
with a hard reset to 0 on a tie; every value lies in [-13, 13]. -/
theorem td_seq_state_machine (close : ℕ → ℚ) (i : ℕ) :
    (i < 4 → td_seq close i = 0) ∧
    (4 ≤ i →
      (close i > close (i - 4) →
        td_seq close i =
          (if td_seq close (i - 1) > 0 then min (td_seq close (i - 1) + 1) 13
            else 1)) ∧
      (close i < close (i - 4) →
        td_seq close i =
          (if td_seq close (i - 1) < 0 then max (td_seq close (i - 1) - 1) (-13)
            else -1)) ∧
      (close i = close (i - 4) → td_seq close i = 0)) ∧
    -13 ≤ td_seq close i ∧ td_seq close i ≤ 13 := by
  refine ⟨?_, ?_, td_seq_bounds close i⟩
  · intro h
    interval_cases i <;> rfl
  · intro h
    obtain ⟨n, rfl⟩ : ∃ n, i = n + 4 := ⟨i - 4, by omega⟩
    have h4 : n + 4 - 4 = n := by omega
    have h1 : n + 4 - 1 = n + 3 := by omega
    rw [h4, h1, td_seq]
    refine ⟨fun hgt => ?_, fun hlt => ?_, fun heq => ?_⟩
    · rw [if_pos hgt]
    · rw [if_neg (by exact not_lt.mpr hlt.le), if_pos hlt]
    · rw [if_neg (by simp [heq]), if_neg (by simp [heq])]

/-- Witness for C4: the reset-on-tie on the spec's own test vector
`[10,10,10,10,11,10]`: at i = 4 the count is 1, and at i = 5 the tie
`close[5] = close[1]` hard-resets it to 0. -/
theorem td_seq_state_machine_witness :
    td_seq (fun n => [(10 : ℚ), 10, 10, 10, 11, 10].getD n 0) 5 = 0 ∧
    td_seq (fun n => [(10 : ℚ), 10, 10, 10, 11, 10].getD n 0) 4 = 1 := by
  constructor
  · exact (td_seq_state_machine (fun n => [(10 : ℚ), 10, 10, 10, 11, 10].getD n 0)
      5).2.1 (by norm_num) |>.2.2 (by norm_num)
  · exact (td_seq_state_machine (fun n => [(10 : ℚ), 10, 10, 10, 11, 10].getD n 0)
      4).2.1 (by norm_num) |>.1 (by norm_num) |>.trans (by norm_num [td_seq])

/-! ## Streak stage (`_calculate_streak`)

The reference series can hold NaN (`bb_basis_20` is NaN for 19 bars), so
it is an `Option`-valued series; `pd.isna` is the `none` test.  A tie
carries the previous streak forward, unlike TD Sequential. -/

/-- `_calculate_streak(close, reference)`. -/
def streak (close : ℕ → ℚ) (reference : ℕ → Option ℚ) : ℕ → ℤ
  | 0 =>
    match reference 0 with
    | none => 0
    | some r => if close 0 > r then 1 else if close 0 < r then -1 else 0
  | i + 1 =>
    match reference (i + 1) with
    | none => 0
    | some r =>
      if close (i + 1) > r then
        if streak close reference i > 0 then streak close reference i + 1 else 1
      else if close (i + 1) < r then
        if streak close reference i < 0 then streak close reference i - 1 else -1
      else streak close reference i

/-- C5: the streak counter: 0 whenever the reference is undefined (hard
reset, not inherited); when the reference is defined at i+1, increment /
restart on a close above it, decrement / restart on a close below it,
and carry the previous streak forward unchanged on a tie. -/
theorem streak_state_machine (close : ℕ → ℚ) (reference : ℕ → Option ℚ)
    (i : ℕ) (r : ℚ) :
    (reference i = none → streak close reference i = 0) ∧
    (reference (i + 1) = some r →
      (close (i + 1) > r →
        streak close reference (i + 1) =
          (if streak close reference i > 0 then streak close reference i + 1
            else 1)) ∧
      (close (i + 1) < r →
        streak close reference (i + 1) =
          (if streak close reference i < 0 then streak close reference i - 1
            else -1)) ∧
      (close (i + 1) = r →
        streak close reference (i + 1) = streak close reference i)) := by
  constructor
  · intro h
    cases i with
    | zero => rw [streak, h]
    | succ n => rw [streak, h]
  · intro h
    simp only [streak, h]
    refine ⟨fun hgt => ?_, fun hlt => ?_, fun heq => ?_⟩
    · rw [if_pos hgt]
    · rw [if_neg (not_lt.mpr hlt.le), if_pos hlt]
    · rw [if_neg (by simp [heq]), if_neg (by simp [heq])]

/-- Witness for C5: the carry-on-tie policy at a concrete input: close
ties the reference at index 1 after one bar above it, and the streak
carries the previous value 1 (it is not reset). -/
theorem streak_state_machine_witness :
    streak (fun n => [(5 : ℚ), 3].getD n 0) (fun _ => some 3) 1 =
      streak (fun n => [(5 : ℚ), 3].getD n 0) (fun _ => some 3) 0 ∧
    streak (fun n => [(5 : ℚ), 3].getD n 0) (fun _ => some 3) 0 = 1 := by
  constructor
  · exact ((streak_state_machine (fun n => [(5 : ℚ), 3].getD n 0)
      (fun _ => some 3) 0 3).2 rfl).2.2 (by norm_num)
  · norm_num [streak]

/-! ## Candle / distance stages (`_calculate_candle_metrics`,
`_calculate_distance_metrics`) -/

/-- `(num / den) * 100` elementwise; a zero denominator yields a
non-finite float, stored as the undefined marker (the persistence layer
substitutes null for any non-finite value). -/
def pctOf (num den : ℚ) : Option ℚ :=
  if den = 0 then none else some (num / den * 100)

/-! ## `calculate_all` -/

/-- A DataFrame column as an indexed series; reads beyond the frame
default to 0 (rows only exist at `i < length`, so the padding is never
consulted by an output row). -/
def seriesOf (l : List ℚ) (i : ℕ) : ℚ := l.getD i 0

/-- `df.sort_values("timestamp")`.  The claims proved below either
concern unique-keyed inputs — on which every comparison sort produces
the same list — or only the output length, so the choice of a stable
insertion sort is immaterial. -/
def sortBars (records : List Bar) : List Bar :=
  List.insertionSort (fun a b => a.timestamp ≤ b.timestamp) records

/-- One row of the returned DataFrame: OHLCV plus the 22 indicator
columns. -/
structure EnrichedRow where
  timestamp : ℤ
  open_ : ℚ
  high : ℚ
  low : ℚ
  close : ℚ
  volume : ℚ
  ema_10 : ℚ
  ema_36 : ℚ
  ema_100 : ℚ
  ema_200 : ℚ
  bb_basis_20 : Option ℚ
  bb_upper_20 : Option ℝ
  bb_lower_20 : Option ℝ
  rsi_14 : Option ℚ
  supertrend_7_3 : ℚ
  supertrend_direction : ℤ
  td_seq : ℤ
  pct_body_range : Option ℚ
  pct_full_range : Option ℚ
  pct_from_ema_10 : Option ℚ
  pct_from_ema_36 : Option ℚ
  pct_from_ema_100 : Option ℚ
  pct_from_ema_200 : Option ℚ
  pct_from_bb_basis_20 : Option ℚ
  streak_bb_basis_20 : ℤ
  streak_ema_36 : ℤ
  streak_ema_100 : ℤ
  streak_ema_200 : ℤ

/-- Row `i` of the enriched frame built over the sorted bars `s`. -/
noncomputable def enrichRow (s : List Bar) (i : ℕ) : EnrichedRow :=
  let o := seriesOf (s.map Bar.open_)
  let h := seriesOf (s.map Bar.high)
  let lo := seriesOf (s.map Bar.low)
  let c := seriesOf (s.map Bar.close)
  { timestamp := (s.map Bar.timestamp).getD i 0
    open_ := o i
    high := h i
    low := lo i
    close := c i
    volume := seriesOf (s.map Bar.volume) i
    ema_10 := ema_10 c i
    ema_36 := ema_36 c i
    ema_100 := ema_100 c i
    ema_200 := ema_200 c i
    bb_basis_20 := bb_basis_20 c i
    bb_upper_20 := bb_upper_20 c i
    bb_lower_20 := bb_lower_20 c i
    rsi_14 := rsi_14 c i
    supertrend_7_3 := supertrend_7_3 h lo c i
    supertrend_direction := supertrend_direction h lo c i
    td_seq := td_seq c i
    pct_body_range := pctOf (c i - o i) (o i)
    pct_full_range := pctOf (h i - lo i) (lo i)
    pct_from_ema_10 := pctOf (c i - ema_10 c i) (ema_10 c i)
    pct_from_ema_36 := pctOf (c i - ema_36 c i) (ema_36 c i)
    pct_from_ema_100 := pctOf (c i - ema_100 c i) (ema_100 c i)
    pct_from_ema_200 := pctOf (c i - ema_200 c i) (ema_200 c i)
    pct_from_bb_basis_20 :=
      match bb_basis_20 c i with
      | none => none
      | some b => pctOf (c i - b) b
    streak_bb_basis_20 := streak c (bb_basis_20 c) i
    streak_ema_36 := streak c (fun j => some (ema_36 c j)) i
    streak_ema_100 := streak c (fun j => some (ema_100 c j)) i
    streak_ema_200 := streak c (fun j => some (ema_200 c j)) i }

/-- `IndicatorCalculator.calculate_all`: empty input short-circuits to
an empty frame; otherwise the records are sorted by timestamp and every
indicator column is computed over the sorted frame. -/
noncomputable def calculate_all (records : List Bar) : List EnrichedRow :=
  if records.isEmpty then []
  else (List.range (sortBars records).length).map (enrichRow (sortBars records))

instance : IsTotal Bar (fun a b => a.timestamp ≤ b.timestamp) :=
  ⟨fun a b => le_total a.timestamp b.timestamp⟩

instance : IsTrans Bar (fun a b => a.timestamp ≤ b.timestamp) :=
  ⟨fun _ _ _ hab hbc => le_trans hab hbc⟩

instance : IsAntisymm Bar (fun a b => a.timestamp < b.timestamp) :=
  ⟨fun _ _ hab hba => absurd (lt_trans hab hba) (lt_irrefl _)⟩

theorem sortBars_perm (records : List Bar) :
    List.Perm (sortBars records) records :=
  List.perm_insertionSort _ records

theorem calculate_all_length (records : List Bar) :
    (calculate_all records).length = records.length := by
  by_cases h : records.isEmpty
  · rw [calculate_all, if_pos h, List.isEmpty_iff.mp h]
    rfl
  · rw [calculate_all, if_neg h, List.length_map, List.length_range]
    exact (sortBars_perm records).length_eq

theorem calculate_all_timestamps (records : List Bar) :
    (calculate_all records).map EnrichedRow.timestamp =
      (sortBars records).map Bar.timestamp := by
  by_cases h : records.isEmpty
  · rw [calculate_all, if_pos h, List.isEmpty_iff.mp h]
    rfl
  · rw [calculate_all, if_neg h, List.map_map]
    apply List.ext_getElem
    · simp
    · intro k h1 h2
      simp only [List.getElem_map, List.getElem_range, Function.comp_apply,
        enrichRow]
      rw [List.getD_eq_getElem _ _ h2, List.getElem_map]

/-- If the (multiset of) timestamps of `records` has no duplicate, the
sorted list is strictly sorted on timestamps. -/
theorem sortBars_strict_sorted (records : List Bar)
    (hnd : (records.map Bar.timestamp).Nodup) :
    (sortBars records).Pairwise (fun a b => a.timestamp < b.timestamp) := by
  have hs : (sortBars records).Pairwise (fun a b => a.timestamp ≤ b.timestamp) :=
    List.sorted_insertionSort _ records
  have hnd2 : ((sortBars records).map Bar.timestamp).Nodup :=
    (hnd.perm ((sortBars_perm records).map Bar.timestamp).symm)
  have hne : (sortBars records).Pairwise (fun a b => a.timestamp ≠ b.timestamp) :=
    List.pairwise_map.mp hnd2
  exact (hs.and hne).imp (fun h => lt_of_le_of_ne h.1 h.2)

/-- Two permutations of a unique-keyed list sort to the same list. -/
theorem sortBars_eq_of_perm (bars bars' : List Bar)
    (hnd : (bars.map Bar.timestamp).Nodup) (hp : List.Perm bars' bars) :
    sortBars bars' = sortBars bars := by
  have hnd' : (bars'.map Bar.timestamp).Nodup := hnd.perm (hp.map _).symm
  exact List.eq_of_perm_of_sorted
    (((sortBars_perm bars').trans hp).trans (sortBars_perm bars).symm)
    (sortBars_strict_sorted bars' hnd')
    (sortBars_strict_sorted bars hnd)

/-- C9: the length invariant and the empty-input behaviour: the output
frame always has exactly the input's length, rows are index-aligned
with the timestamp-sorted input, and the empty input yields an empty
frame rather than an error. -/
theorem calculate_all_length_invariant :
    (∀ records : List Bar, (calculate_all records).length = records.length) ∧
    calculate_all ([] : List Bar) = [] ∧
    (∀ records : List Bar,
      (calculate_all records).map EnrichedRow.timestamp =
        (sortBars records).map Bar.timestamp) :=
  ⟨calculate_all_length, rfl, calculate_all_timestamps⟩

/-- C7: defensive re-sorting: on a unique-dated bar list, every
permutation of it produces exactly the output of the date-ascending
sequence, and the output rows are in strictly ascending date order. -/
theorem calculate_all_sort_invariance (bars bars' : List Bar)
    (hnd : (bars.map Bar.timestamp).Nodup) (hp : List.Perm bars' bars) :
    calculate_all bars' = calculate_all (sortBars bars) ∧
    ((calculate_all bars').map EnrichedRow.timestamp).Pairwise (· < ·) := by
  have hsorts : sortBars bars' = sortBars bars :=
    sortBars_eq_of_perm bars bars' hnd hp
  have hsortss : sortBars (sortBars bars) = sortBars bars :=
    sortBars_eq_of_perm bars (sortBars bars) hnd (sortBars_perm bars)
  constructor
  · by_cases h : bars = []
    · subst h
      have h1 : bars' = [] := List.Perm.eq_nil hp
      subst h1
      rfl
    · have h' : ¬ bars'.isEmpty = true := by
        rw [List.isEmpty_iff]
        intro h0
        rw [h0] at hp
        exact h hp.symm.eq_nil
      have hsnil : ¬ (sortBars bars).isEmpty = true := by
        rw [List.isEmpty_iff]
        intro h0
        have hq := sortBars_perm bars
        rw [h0] at hq
        exact h hq.symm.eq_nil
      rw [calculate_all, calculate_all, if_neg h', if_neg hsnil, hsorts, hsortss]
  · rw [calculate_all_timestamps, hsorts]
    exact List.pairwise_map.mpr (sortBars_strict_sorted bars hnd)

/-- Witness for C7: a concrete out-of-order two-bar list against its
sorted version. -/
theorem calculate_all_sort_invariance_witness :
    calculate_all [(⟨2, 1, 1, 1, 1, 1⟩ : Bar), ⟨1, 2, 2, 2, 2, 2⟩] =
      calculate_all
        (sortBars [(⟨1, 2, 2, 2, 2, 2⟩ : Bar), ⟨2, 1, 1, 1, 1, 1⟩]) ∧
    ((calculate_all [(⟨2, 1, 1, 1, 1, 1⟩ : Bar), ⟨1, 2, 2, 2, 2, 2⟩]).map
      EnrichedRow.timestamp).Pairwise (· < ·) :=
  calculate_all_sort_invariance
    [(⟨1, 2, 2, 2, 2, 2⟩ : Bar), ⟨2, 1, 1, 1, 1, 1⟩]
    [(⟨2, 1, 1, 1, 1, 1⟩ : Bar), ⟨1, 2, 2, 2, 2, 2⟩]
    (by decide) (by decide)

/-- C2 (amended): `calculate_all` performs no date validation: on an
input with duplicated timestamps it still sorts and computes, returning
a full-length computed frame instead of rejecting. -/
theorem calculate_all_no_duplicate_validation (records : List Bar)
    (hdup : ¬ (records.map Bar.timestamp).Nodup) :
    (calculate_all records).length = records.length :=
  calculate_all_length records

/-- Witness for C2 (amended): a concrete two-bar input with a duplicated
timestamp on which `calculate_all` returns a computed two-row frame. -/
theorem calculate_all_no_duplicate_validation_witness :
    (calculate_all [(⟨1, 1, 1, 1, 1, 1⟩ : Bar), ⟨1, 2, 2, 2, 2, 2⟩]).length = 2 :=
  calculate_all_no_duplicate_validation
    [(⟨1, 1, 1, 1, 1, 1⟩ : Bar), ⟨1, 2, 2, 2, 2, 2⟩] (by decide)

/-- C2 counterexample: a duplicated-timestamp input is not rejected:
`calculate_all` returns a nonempty computed frame for it (there is no
validation-failure outcome in `calculate_all` at all — its only
conditional is the empty-input short-circuit). -/
theorem calculate_all_duplicate_computes :
    ¬ (([(⟨1, 1, 1, 1, 1, 1⟩ : Bar), ⟨1, 2, 2, 2, 2, 2⟩].map
        Bar.timestamp).Nodup) ∧
    (calculate_all [(⟨1, 1, 1, 1, 1, 1⟩ : Bar), ⟨1, 2, 2, 2, 2, 2⟩]).length = 2 ∧
    calculate_all [(⟨1, 1, 1, 1, 1, 1⟩ : Bar), ⟨1, 2, 2, 2, 2, 2⟩] ≠ [] := by
  refine ⟨by decide, calculate_all_length _, ?_⟩
  intro h
  have := congrArg List.length h
  rw [calculate_all_length] at this
  exact absurd this (by decide)

end Postmorty
